import Mathlib

/-!
Verification of the request-resolution and response-construction pipeline of
basic-http-server (src/main.rs, src/ext.rs, src/error.rs).

Modelling conventions:
* Byte strings (URI paths, filesystem paths, file contents, header values,
  HTML bodies) are `List Nat`, each element a byte value.  `strBytes` encodes
  an ASCII/Unicode Lean string literal to its UTF-8 bytes for concrete inputs.
* The filesystem is a finite association list from normalized absolute paths
  (lists of path segments, `..` and `.` resolved as a Unix kernel would) to
  entries (regular file with contents, or directory).  Filesystem operations
  (`fsStat`, `fsOpen`, directory enumeration) are the only ways the embedded
  pipeline touches it.
* External crates (the handlebars template rendering of `template.html`, the
  comrak markdown renderer, and `mime_guess`) are not part of the repository
  sources, so the pipeline is parametrized by an `Externals` record holding
  those three functions; theorems quantify over it.
* Machine integers do not overflow in any modelled computation (lengths,
  status codes, bytes), so `Nat` is used directly.
-/

deriving instance DecidableEq for Except

namespace BasicHttpServer

/-! ## Bytes and text -/

/-- UTF-8 encoding of a single Unicode code point (as `Nat`). -/
def charUtf8 (c : Nat) : List Nat :=
  if c < 0x80 then [c]
  else if c < 0x800 then [0xC0 + c / 64, 0x80 + c % 64]
  else if c < 0x10000 then [0xE0 + c / 4096, 0x80 + (c / 64) % 64, 0x80 + c % 64]
  else [0xF0 + c / 0x40000, 0x80 + (c / 4096) % 64, 0x80 + (c / 64) % 64, 0x80 + c % 64]

/-- UTF-8 bytes of a Lean string literal, used to write concrete byte strings. -/
def strBytes (s : String) : List Nat :=
  s.data.flatMap (fun c => charUtf8 c.toNat)

/-- Value of an ASCII hex digit byte (case-insensitive), as used by the
`percent-encoding` crate when decoding `%XX` escapes. -/
def hexDigit (b : Nat) : Option Nat :=
  if 48 ≤ b ∧ b ≤ 57 then some (b - 48)
  else if 65 ≤ b ∧ b ≤ 70 then some (b - 55)
  else if 97 ≤ b ∧ b ≤ 102 then some (b - 87)
  else none

/-- Uppercase hex digit byte for a value below 16, as emitted by
`percent_encoding::utf8_percent_encode`. -/
def hexUpper (n : Nat) : Nat :=
  if n < 10 then 48 + n else 55 + n

/-- Embedding of `percent_encoding::percent_decode_str`: each `%XX` with two
hex digits becomes the byte `XX`; a `%` not followed by two hex digits is
passed through unchanged, as the crate does. -/
def percentDecode : List Nat → List Nat
  | [] => []
  | 37 :: h :: l :: rest =>
    match hexDigit h, hexDigit l with
    | some hi, some lo => (16 * hi + lo) :: percentDecode rest
    | _, _ => 37 :: percentDecode (h :: l :: rest)
  | b :: rest => b :: percentDecode rest

/-- UTF-8 validity automaton: `need` pending continuation bytes, the next one
constrained to `[lo, hi]` (the first continuation byte of a multi-byte
sequence has a narrowed range, per the Unicode table excluding overlong forms
and surrogates, exactly the checks `str::from_utf8` performs). -/
def utf8Run : List Nat → Nat → Nat → Nat → Bool
  | [], need, _, _ => need = 0
  | b :: rest, 0, _, _ =>
    if b < 0x80 then utf8Run rest 0 0 0
    else if 0xC2 ≤ b ∧ b ≤ 0xDF then utf8Run rest 1 0x80 0xBF
    else if b = 0xE0 then utf8Run rest 2 0xA0 0xBF
    else if (0xE1 ≤ b ∧ b ≤ 0xEC) ∨ b = 0xEE ∨ b = 0xEF then utf8Run rest 2 0x80 0xBF
    else if b = 0xED then utf8Run rest 2 0x80 0x9F
    else if b = 0xF0 then utf8Run rest 3 0x90 0xBF
    else if 0xF1 ≤ b ∧ b ≤ 0xF3 then utf8Run rest 3 0x80 0xBF
    else if b = 0xF4 then utf8Run rest 3 0x80 0x8F
    else false
  | b :: rest, need + 1, lo, hi =>
    if lo ≤ b ∧ b ≤ hi then utf8Run rest need 0x80 0xBF else false

/-- A byte string decodes as UTF-8 text, as checked by
`percent_decode_str(..).decode_utf8()` and `String::from_utf8`. -/
def isValidUtf8 (bs : List Nat) : Bool :=
  utf8Run bs 0 0 0

/-! ## Paths

Filesystem paths follow Unix `PathBuf` semantics: `pathPush` appends a
relative path with a separator and replaces the whole path when the pushed
path is absolute, exactly like `std::path::PathBuf::push`. -/

/-- Embedding of `PathBuf::push` (Unix): pushing an absolute path replaces
the receiver; otherwise a `/` separator is interposed when needed. -/
def pathPush (base rel : List Nat) : List Nat :=
  if rel.head? = some 47 then rel
  else if base = [] ∨ base.getLast? = some 47 then base ++ rel
  else base ++ 47 :: rel

/-- Whether a raw path ends in a `/` byte. -/
def trailingSlash (p : List Nat) : Bool :=
  p.getLast? = some 47

/-- Split a byte string at a separator byte, keeping empty pieces. -/
def splitOnByte (sep : Nat) : List Nat → List (List Nat)
  | [] => [[]]
  | b :: rest =>
    match splitOnByte sep rest with
    | [] => [[b]]
    | s :: ss => if b = sep then [] :: s :: ss else (b :: s) :: ss

/-- Path components in the sense of `std::path::Components`: split on `/`,
dropping empty components and `.` (`CurDir`), keeping `..` literally. -/
def splitSegs (p : List Nat) : List (List Nat) :=
  (splitOnByte 47 p).filter (fun s => !(s == []) && !(s == [46]))

/-- Join path segments with `/` separators (a relative path). -/
def joinSegs (segs : List (List Nat)) : List Nat :=
  List.intercalate [47] segs

/-- Resolve a path the way the Unix kernel does when the path is used for
filesystem access: `.` and empty segments vanish and `..` removes the
previous segment (at the root, `/..` stays at the root).  The pipeline under
verification never performs this canonicalization itself; it is the host
filesystem's path lookup. -/
def normalizePath (p : List Nat) : List (List Nat) :=
  (splitSegs p).foldl
    (fun acc seg => if seg = [46, 46] then acc.dropLast else acc ++ [seg]) []

/-- Lexical containment under a root directory: the normalized path stays
below the normalized root. -/
def underRoot (root p : List Nat) : Bool :=
  (normalizePath root).isPrefixOf (normalizePath p)

/-- Rust `Path::file_name`: the final component, unless it is `..` (or the
path has no components at all). -/
def fileNameOf (p : List Nat) : Option (List Nat) :=
  match (splitSegs p).getLast? with
  | some s => if s = [46, 46] then none else some s
  | none => none

/-- Suffix of a byte string strictly after the last occurrence of `sep`; the
whole string when `sep` does not occur.  This is `str::rsplit(sep).next()`. -/
def afterLastSep (sep : Nat) : List Nat → List Nat
  | [] => []
  | b :: rest =>
    if rest.contains sep then afterLastSep sep rest
    else if b = sep then rest else b :: rest

/-- Rust `Path::extension` on a file name: the part after the last `.`,
provided the stem before that dot is nonempty (so `.gitignore` has none). -/
def rustExtension (f : List Nat) : Option (List Nat) :=
  let e := afterLastSep 46 f
  if e.length + 1 < f.length then some e else none

/-- The `file_ext` computed in `ext::serve`:
`path.extension().and_then(OsStr::to_str).unwrap_or("")`. -/
def fileExtOf (p : List Nat) : List Nat :=
  match fileNameOf p with
  | some f => (rustExtension f).getD []
  | none => []

/-! ## Filesystem model -/

/-- A filesystem entry: a regular file with contents, or a directory. -/
inductive FsEntry
  | file (contents : List Nat)
  | dir
deriving DecidableEq, Repr

/-- A finite filesystem: association list from normalized absolute paths
(segment lists) to entries. -/
structure Fs where
  entries : List (List (List Nat) × FsEntry)
deriving DecidableEq, Repr

/-- Association-list lookup by normalized path key. -/
def lookupKey : List (List (List Nat) × FsEntry) → List (List Nat) → Option FsEntry
  | [], _ => none
  | e :: rest, k => if e.1 = k then some e.2 else lookupKey rest k

/-- I/O error kinds distinguished by the pipeline.  `notFound` is
`io::ErrorKind::NotFound`; the others stand for every remaining kind
(`EISDIR` when reading a directory, `ENOTDIR` for a trailing slash on a
file, and anything else). -/
inductive IoKind
  | notFound
  | isADir
  | notADir
  | otherKind
deriving DecidableEq, Repr

/-- Embedding of `stat`/`tokio::fs::metadata`: resolve the path against the
filesystem; a missing entry is `NotFound`; naming a regular file with a
trailing slash fails with `ENOTDIR` as on Linux. -/
def fsStat (fs : Fs) (p : List Nat) : Except IoKind FsEntry :=
  match lookupKey fs.entries (normalizePath p) with
  | none => .error .notFound
  | some .dir => .ok .dir
  | some (.file c) =>
    if trailingSlash p then .error .notADir else .ok (.file c)

/-- Rust `Path::is_dir`: `stat` succeeds and reports a directory (every
error becomes `false`). -/
def isDir (fs : Fs) (p : List Nat) : Bool :=
  match fsStat fs p with
  | .ok .dir => true
  | _ => false

/-- Embedding of opening and reading a file (`File::open` + streaming, and
`tokio::fs::read`): a missing path is `NotFound`; a directory can be opened
but reading it fails (`EISDIR`), modelled as the failure surfacing here. -/
def fsOpen (fs : Fs) (p : List Nat) : Except IoKind (List Nat) :=
  match fsStat fs p with
  | .error k => .error k
  | .ok (.file c) => .ok c
  | .ok .dir => .error .isADir

/-- Names of the immediate children of a directory in the filesystem. -/
def childNamesOf (fs : Fs) (p : List Nat) : List (List Nat) :=
  let base := normalizePath p
  fs.entries.filterMap (fun e =>
    if e.1.length = base.length + 1 ∧ base.isPrefixOf e.1 then e.1.getLast? else none)

/-- Embedding of `tokio::fs::read_dir` followed by `DirEntry::path`: each
child name joined onto the listed directory's path. -/
def readDirPaths (fs : Fs) (p : List Nat) : List (List Nat) :=
  (childNamesOf fs p).map (fun n => pathPush p n)

/-- Byte-wise lexicographic comparison of byte strings; `PathBuf`'s `Ord`
coincides with it for the single-extra-component paths being sorted. -/
def bytesLe : List Nat → List Nat → Bool
  | [], _ => true
  | _ :: _, [] => false
  | x :: xs, y :: ys => if x < y then true else if y < x then false else bytesLe xs ys

/-- Insertion into a `bytesLe`-sorted list. -/
def insertByLe (x : List Nat) : List (List Nat) → List (List Nat)
  | [] => [x]
  | y :: ys => if bytesLe x y then x :: y :: ys else y :: insertByLe x ys

/-- Embedding of `Vec::sort` on the collected entry paths. -/
def sortPaths (l : List (List Nat)) : List (List Nat) :=
  l.foldr insertByLe []

/-! ## Errors, requests, responses -/

/-- Embedding of `error::Error` (src/error.rs).  Variants irrelevant to the
request pipeline (`Engine`, `Hyper`, `AddrParse`) are omitted; the payloads
of the remaining variants carry no information the pipeline inspects beyond
the `io::ErrorKind`, so they are dropped. -/
inductive Err
  | Io (k : IoKind)
  | Http
  | MarkdownUtf8
  | StripPrefixInDirList
  | TemplateRender
  | UriNotAbsolute
  | UriNotUtf8
  | WriteInDirList
deriving DecidableEq, Repr

/-- The `derive_more::Display` strings of src/error.rs, used when an error is
logged or embedded in the last-resort response body. -/
def errDisplay : Err → List Nat
  | .Io _ => strBytes ("I/O error")
  | .Http => strBytes ("HTTP error")
  | .MarkdownUtf8 => strBytes ("markdown is not UTF-8")
  | .StripPrefixInDirList => strBytes ("failed to strip prefix in directory listing")
  | .TemplateRender => strBytes ("failed to render template")
  | .UriNotAbsolute => strBytes ("requested URI is not an absolute path")
  | .UriNotUtf8 => strBytes ("requested URI is not UTF-8")
  | .WriteInDirList => strBytes ("formatting error while creating directory listing")

/-- Embedding of `log_error_chain`: `Error!` lines for the error and each
`source()`.  src/error.rs implements `std::error::Error` with the default
`source()` (always `None`), so the chain has exactly one entry. -/
def log_error_chain (e : Err) : List (List Nat) :=
  [errDisplay e]

/-- HTTP method; only `GET` is treated specially by the server. -/
inductive Method
  | GET
  | otherMethod
deriving DecidableEq, Repr

/-- Request URI: the raw (still percent-encoded) path as `http::Uri::path()`
returns it, and the optional raw query string. -/
structure Uri where
  path : List Nat
  query : Option (List Nat)
deriving DecidableEq, Repr

/-- An incoming request; only the method and URI are consulted. -/
structure Request where
  method : Method
  uri : Uri
deriving DecidableEq, Repr

/-- Lower-case header names used by the pipeline (hyper stores names
case-insensitively). -/
def CONTENT_LENGTH : String := "content-length"

/-- The `content-type` header name. -/
def CONTENT_TYPE : String := "content-type"

/-- The `location` header name. -/
def LOCATION : String := "location"

/-- The `allow` header name. -/
def ALLOW : String := "allow"

/-- A response body: empty (`Empty::new`), a fixed byte string
(`Full`/`String` bodies), or the lazy byte stream of an opened file
(`StreamBody` over `ReaderStream`), recorded with the bytes it will yield. -/
inductive Body
  | empty
  | str (s : List Nat)
  | fileStream (contents : List Nat)
deriving DecidableEq, Repr

/-- An HTTP response: status code, ordered header list, body. -/
structure Response where
  status : Nat
  headers : List (String × List Nat)
  body : Body
deriving DecidableEq, Repr

/-- Embedding of `hyper::HeaderMap::insert`: every existing value for the
name is replaced by the single new value. -/
def insertHeader (k : String) (v : List Nat) (hs : List (String × List Nat)) :
    List (String × List Nat) :=
  hs.filter (fun h => h.1 ≠ k) ++ [(k, v)]

/-- All values carried by a header name, in order. -/
def headerValues (k : String) (hs : List (String × List Nat)) : List (List Nat) :=
  (hs.filter (fun h => h.1 = k)).map (fun h => h.2)

/-- Decimal ASCII rendering of a number, for `Content-Length` values. -/
def natBytes (n : Nat) : List Nat :=
  strBytes (Nat.repr n)

/-- The server configuration consulted by the pipeline: root directory and
the extensions flag (the listen address never reaches it). -/
structure Config where
  root_dir : List Nat
  use_extensions : Bool
deriving DecidableEq, Repr

/-- Template/markdown/MIME data for the HTML page of a title and body. -/
structure HtmlCfg where
  title : List Nat
  body : List Nat
deriving DecidableEq, Repr

/-- The external crates the pipeline calls but whose code is outside this
repository's sources: `render` is `render_html` (handlebars applied to the
`template.html` file, which src/ does not contain — the spec treats it as a
pure function from a title/body pair to a rendered HTML string, fallible
with `TemplateRender`); `md2html` is `comrak::markdown_to_html` with the
options set in `md_path_to_html`; `mimeGuess` is
`mime_guess::from_path(..).first_or_octet_stream()` as a MIME string. -/
structure Externals where
  render : HtmlCfg → Except Err (List Nat)
  md2html : List Nat → List Nat
  mimeGuess : List Nat → List Nat

/-! ## Path resolution (src/main.rs `local_path_for_request`) -/

/-- Prefix of a byte string before the first occurrence of a byte. -/
def takeUntil (sep : Nat) (s : List Nat) : List Nat :=
  s.takeWhile (fun b => b ≠ sep)

/-- Embedding of `local_path_for_request`: trim at the first `?`,
percent-decode, require UTF-8 (`UriNotUtf8`), require a leading `/`
(`UriNotAbsolute`), and push the remainder onto the root directory.  This
function performs no filesystem access — it takes no `Fs` argument. -/
def local_path_for_request (uriPath root_dir : List Nat) : Except Err (List Nat) :=
  let request_path := takeUntil 63 uriPath
  let decoded := percentDecode request_path
  if isValidUtf8 decoded then
    if decoded.head? = some 47 then .ok (pathPush root_dir decoded.tail)
    else .error .UriNotAbsolute
  else .error .UriNotUtf8

/-- Embedding of `local_path_with_maybe_index`: append `index.html` when the
resolved path is an existing directory. -/
def local_path_with_maybe_index (fs : Fs) (uriPath root_dir : List Nat) :
    Except Err (List Nat) :=
  match local_path_for_request uriPath root_dir with
  | .error e => .error e
  | .ok p => .ok (if isDir fs p then pathPush p (strBytes ("index.html")) else p)

/-! ## Redirect and file serving (src/main.rs) -/

/-- Embedding of `try_dir_redirect`: no redirect when the raw request path
already ends in `/`; otherwise resolve it, and when it names a directory
answer 302 with `Location` equal to the raw path plus `/` plus the original
query string, with an empty body. -/
def try_dir_redirect (fs : Fs) (req : Request) (root_dir : List Nat) :
    Except Err (Option Response) :=
  if trailingSlash req.uri.path then .ok none
  else
    match local_path_for_request req.uri.path root_dir with
    | .error e => .error e
    | .ok path =>
      if !isDir fs path then .ok none
      else
        let new_loc := req.uri.path ++ [47] ++
          (match req.uri.query with
           | some q => 63 :: q
           | none => [])
        .ok (some { status := 302, headers := [(LOCATION, new_loc)], body := .empty })

/-- Embedding of `respond_with_file`: guess the MIME type, open the file,
and stream it with `Content-Length` and `Content-Type` headers. -/
def respond_with_file (X : Externals) (fs : Fs) (path : List Nat) :
    Except Err Response :=
  let mime_type := X.mimeGuess path
  match fsOpen fs path with
  | .error k => .error (.Io k)
  | .ok contents =>
    .ok { status := 200,
          headers := [(CONTENT_LENGTH, natBytes contents.length),
                      (CONTENT_TYPE, mime_type)],
          body := .fileStream contents }

/-- Embedding of `serve_file`: try the directory redirect first, then serve
the (possibly index-substituted) resolved path. -/
def serve_file (X : Externals) (fs : Fs) (req : Request) (root_dir : List Nat) :
    Except Err Response :=
  match try_dir_redirect fs req root_dir with
  | .error e => .error e
  | .ok (some redir_resp) => .ok redir_resp
  | .ok none =>
    match local_path_with_maybe_index fs req.uri.path root_dir with
    | .error e => .error e
    | .ok path => respond_with_file X fs path

/-! ## Developer extensions (src/ext.rs) -/

/-- Embedding of `md_path_to_html`: read the file, require UTF-8
(`MarkdownUtf8`), render markdown to HTML (the comrak options — autolink,
"user-content-" header ids, tables, strikethrough, tagfilter, tasklist,
github_pre_lang — live inside `Externals.md2html`), wrap it in the page
template, and answer 200 `text/html`. -/
def md_path_to_html (X : Externals) (fs : Fs) (path : List Nat) :
    Except Err Response :=
  match fsOpen fs path with
  | .error k => .error (.Io k)
  | .ok buf =>
    if isValidUtf8 buf then
      let html := X.md2html buf
      match X.render { title := [], body := html } with
      | .error e => .error e
      | .ok page =>
        .ok { status := 200,
              headers := [(CONTENT_LENGTH, natBytes page.length),
                          (CONTENT_TYPE, strBytes ("text/html"))],
              body := .str page }
    else .error .MarkdownUtf8

/-- The `TEXT_EXTENSIONS` allow-list of src/ext.rs. -/
def TEXT_EXTENSIONS : List (List Nat) :=
  [strBytes ("c"), strBytes ("cc"), strBytes ("cpp"), strBytes ("csv"),
   strBytes ("fst"), strBytes ("h"), strBytes ("java"), strBytes ("md"),
   strBytes ("mk"), strBytes ("proto"), strBytes ("py"), strBytes ("rb"),
   strBytes ("rs"), strBytes ("rst"), strBytes ("sh"), strBytes ("toml"),
   strBytes ("yml")]

/-- The `TEXT_FILES` allow-list of src/ext.rs. -/
def TEXT_FILES : List (List Nat) :=
  [strBytes (".gitattributes"), strBytes (".gitignore"), strBytes (".mailmap"),
   strBytes ("AUTHORS"), strBytes ("CODE_OF_CONDUCT"), strBytes ("CONTRIBUTING"),
   strBytes ("COPYING"), strBytes ("COPYRIGHT"), strBytes ("Cargo.lock"),
   strBytes ("LICENSE"), strBytes ("LICENSE-APACHE"), strBytes ("LICENSE-MIT"),
   strBytes ("Makefile"), strBytes ("rust-toolchain")]

/-- The match condition of `maybe_convert_mime_type_to_text`, on the raw
request path: the final segment's `rsplit('.')` extension is in
`TEXT_EXTENSIONS`, or the final segment itself is in `TEXT_FILES`.
(`rsplit('/').next()` on a `str` is always `Some`, so no case is lost.) -/
def textMatch (reqPath : List Nat) : Bool :=
  let file_name := afterLastSep 47 reqPath
  let ex := afterLastSep 46 file_name
  TEXT_EXTENSIONS.contains ex || TEXT_FILES.contains file_name

/-- Embedding of `maybe_convert_mime_type_to_text`: when the request path
matches the allow-lists, overwrite the `Content-Type` header with
`text/plain`; otherwise leave the response untouched. -/
def maybe_convert_mime_type_to_text (reqPath : List Nat) (resp : Response) :
    Response :=
  if textMatch reqPath then
    { resp with
      headers := insertHeader CONTENT_TYPE (strBytes ("text/plain")) resp.headers }
  else resp

/-- The set of ASCII bytes percent-encoded by `make_dir_list_body`:
the WHATWG fragment set (`CONTROLS` plus space, quote, angle brackets,
backtick) extended with `#`, `?`, `{`, `}`. -/
def inPathSet (b : Nat) : Bool :=
  b < 32 || b = 127 || b = 32 || b = 34 || b = 60 || b = 62 || b = 96 ||
  b = 35 || b = 63 || b = 123 || b = 125

/-- Embedding of `percent_encoding::utf8_percent_encode`: bytes in the set,
and every non-ASCII byte, become `%XX` with uppercase hex; other bytes pass
through. -/
def utf8PercentEncode (inSet : Nat → Bool) (bs : List Nat) : List Nat :=
  bs.flatMap (fun b =>
    if 128 ≤ b || inSet b then [37, hexUpper (b / 16), hexUpper (b % 16)]
    else [b])

/-- Embedding of `Path::strip_prefix` as used on each listed entry: the
entry's components relative to the root's components, rejoined with `/`;
fails when the root is not a componentwise prefix. -/
def stripRoot (root_dir p : List Nat) : Option (List Nat) :=
  let rs := splitSegs root_dir
  let ps := splitSegs p
  if rs.isPrefixOf ps then some (joinSegs (ps.drop rs.length)) else none

/-- The display name of a listed entry: `path.file_name()` with the
`maybe_dot_dot` fallback (`..` when the path ends with `..`). -/
def fileNameForList (p : List Nat) : Option (List Nat) :=
  match fileNameOf p with
  | some f => some f
  | none =>
    if (splitSegs p).getLast? = some [46, 46] then some [46, 46] else none

/-- One `<div><a href='/..'>..</a></div>` line of the directory listing (39
is the apostrophe byte, 47 the slash, 62 the closing angle bracket, 10 the
newline `writeln!` appends).  A `strip_prefix` failure aborts with
`StripPrefixInDirList`; an entry with no file name, or with a non-UTF-8 name
or URL, is only warned about and skipped. -/
def dirListLine (root_dir p : List Nat) : Except Err (List Nat) :=
  match stripRoot root_dir p with
  | none => .error .StripPrefixInDirList
  | some full_url =>
    match fileNameForList p with
    | none => .ok []
    | some file_name =>
      if isValidUtf8 file_name then
        if isValidUtf8 full_url then
          .ok (strBytes ("<div><a href=") ++ [39, 47] ++
               utf8PercentEncode inPathSet full_url ++ [39, 62] ++
               file_name ++ strBytes ("</a></div>") ++ [10])
        else .ok []
      else .ok []

/-- The listing lines for every entry path, concatenated in order. -/
def dirListLines (root_dir : List Nat) : List (List Nat) → Except Err (List Nat)
  | [] => .ok []
  | p :: rest =>
    match dirListLine root_dir p with
    | .error e => .error e
    | .ok line =>
      match dirListLines root_dir rest with
      | .error e => .error e
      | .ok more => .ok (line ++ more)

/-- Embedding of `make_dir_list_body`: the `<div>`-wrapped lines rendered
through the page template.  (`writeln!` into a `String` cannot fail, so the
`WriteInDirList` arm is unreachable and not modelled.) -/
def make_dir_list_body (X : Externals) (root_dir : List Nat)
    (paths : List (List Nat)) : Except Err (List Nat) :=
  match dirListLines root_dir paths with
  | .error e => .error e
  | .ok mid =>
    X.render { title := [],
               body := strBytes ("<div>") ++ [10] ++ mid ++ strBytes ("</div>") ++ [10] }

/-- Embedding of `html_str_to_response_with_headers`: the given headers
extended with `Content-Length` and `Content-Type: text/html`, the string as
body.  The `http::response::Builder` cannot fail on these constant names and
well-formed values, so this is total (wrapped in `Except` as in the source). -/
def html_str_to_response_with_headers (body : List Nat) (status : Nat)
    (headers : List (String × List Nat)) : Except Err Response :=
  .ok { status := status,
        headers := headers ++ [(CONTENT_LENGTH, natBytes body.length),
                               (CONTENT_TYPE, strBytes ("text/html"))],
        body := .str body }

/-- Embedding of `html_str_to_response` (no extra headers). -/
def html_str_to_response (body : List Nat) (status : Nat) : Except Err Response :=
  html_str_to_response_with_headers body status []

/-- Embedding of `list_dir`: the `..` entry followed by the sorted children,
rendered as an HTML listing with status 200. -/
def list_dir (X : Externals) (fs : Fs) (root_dir path : List Nat) :
    Except Err Response :=
  let up_dir := pathPush path [46, 46]
  let entries := sortPaths (readDirPaths fs path)
  match make_dir_list_body X root_dir (up_dir :: entries) with
  | .error e => .error e
  | .ok html => html_str_to_response html 200

/-- Embedding of `maybe_list_dir`: `stat` the resolved path (propagating the
error when that fails — in particular `NotFound` for a missing path), list
it when it is a directory, answer `none` when it is a file. -/
def maybe_list_dir (X : Externals) (fs : Fs) (root_dir path : List Nat) :
    Except Err (Option Response) :=
  match fsStat fs path with
  | .error k => .error (.Io k)
  | .ok .dir =>
    match list_dir X fs root_dir path with
    | .error e => .error e
    | .ok r => .ok (some r)
  | .ok (.file _) => .ok none

/-- Embedding of `ext::serve`: pass the outcome through when extensions are
disabled; otherwise re-resolve the path, divert to markdown rendering when
its extension is exactly `md` (before ever inspecting the prior outcome),
apply the plain-text MIME override to successes, try the directory listing
on a `NotFound` I/O failure, and pass everything else through. -/
def ext_serve (X : Externals) (config : Config) (fs : Fs) (req : Request)
    (resp : Except Err Response) : Except Err Response :=
  if !config.use_extensions then resp
  else
    match local_path_for_request req.uri.path config.root_dir with
    | .error e => .error e
    | .ok path =>
      let file_ext := fileExtOf path
      if file_ext = strBytes ("md") then md_path_to_html X fs path
      else
        match resp with
        | .ok r => .ok (maybe_convert_mime_type_to_text req.uri.path r)
        | .error (.Io k) =>
          if k = .notFound then
            match maybe_list_dir X fs config.root_dir path with
            | .error e2 => .error e2
            | .ok (some f) => .ok f
            | .ok none => .error (.Io k)
          else .error (.Io k)
        | .error e => .error e

/-! ## Error translation (src/main.rs) -/

/-- Whether an error is the specially-treated `NotFound` I/O error. -/
def isNotFoundIo : Err → Bool
  | .Io .notFound => true
  | _ => false

/-- The `format!("{status}")` title of an error page (`http::StatusCode`
displays code and canonical reason). -/
def statusDisplay (status : Nat) : List Nat :=
  if status = 200 then strBytes ("200 OK")
  else if status = 302 then strBytes ("302 Found")
  else if status = 404 then strBytes ("404 Not Found")
  else if status = 405 then strBytes ("405 Method Not Allowed")
  else if status = 500 then strBytes ("500 Internal Server Error")
  else natBytes status

/-- Embedding of `render_error_html`: the template applied to the status
text with an empty body. -/
def render_error_html (X : Externals) (status : Nat) : Except Err (List Nat) :=
  X.render { title := statusDisplay status, body := [] }

/-- Embedding of `make_error_response_from_code_and_headers`. -/
def make_error_response_from_code_and_headers (X : Externals) (status : Nat)
    (headers : List (String × List Nat)) : Except Err Response :=
  match render_error_html X status with
  | .error e => .error e
  | .ok body => html_str_to_response_with_headers body status headers

/-- Embedding of `make_error_response_from_code`. -/
def make_error_response_from_code (X : Externals) (status : Nat) :
    Except Err Response :=
  make_error_response_from_code_and_headers X status []

/-- Embedding of `make_internal_server_error_response`: a 500 page, paired
with the `log_error_chain` lines the source prints for the error.  (The
source logs before building the page; when building fails the lines were
already printed, which this value-level model does not retain.) -/
def make_internal_server_error_response (X : Externals) (err : Err) :
    Except Err (Response × List (List Nat)) :=
  match make_error_response_from_code X 500 with
  | .error e => .error e
  | .ok r => .ok (r, log_error_chain err)

/-- Embedding of `make_io_error_response`: `NotFound` becomes a 404 (logged
only at debug level, so no error-chain lines); every other I/O kind becomes
an internal server error. -/
def make_io_error_response (X : Externals) (k : IoKind) :
    Except Err (Response × List (List Nat)) :=
  match k with
  | .notFound =>
    match make_error_response_from_code X 404 with
    | .error e => .error e
    | .ok r => .ok (r, [])
  | k => make_internal_server_error_response X (.Io k)

/-- Embedding of `make_error_response`: dispatch I/O errors to
`make_io_error_response`, everything else to the 500 builder. -/
def make_error_response (X : Externals) (e : Err) :
    Except Err (Response × List (List Nat)) :=
  match e with
  | .Io k => make_io_error_response X k
  | e => make_internal_server_error_response X e

/-- Embedding of `transform_error`: successes pass through; failures become
error responses; when even that fails, `Response::new` over the plain-text
`format!("unexpected internal error: {e}")` body (status 200, no headers)
is returned directly, together with the `error!` line. -/
def transform_error (X : Externals) (resp : Except Err Response) :
    Response × List (List Nat) :=
  match resp with
  | .ok r => (r, [])
  | .error e =>
    match make_error_response X e with
    | .ok rl => rl
    | .error e2 =>
      ({ status := 200, headers := [],
         body := .str (strBytes ("unexpected internal error: ") ++ errDisplay e2) },
       [strBytes ("unexpected internal error: ") ++ errDisplay e2])

/-! ## Top-level request handling (src/main.rs `serve`) -/

/-- Description of an unsupported request (status and extra headers). -/
structure Unsupported where
  code : Nat
  headers : List (String × List Nat)
deriving DecidableEq, Repr

/-- Embedding of `get_unsupported_request_message`: every non-GET method is
405 with an `Allow: GET` header. -/
def get_unsupported_request_message (req : Request) : Option Unsupported :=
  if req.method ≠ .GET then
    some { code := 405, headers := [(ALLOW, strBytes ("GET"))] }
  else none

/-- Embedding of `handle_unsupported_request`. -/
def handle_unsupported_request (X : Externals) (req : Request) :
    Option (Except Err Response) :=
  match get_unsupported_request_message req with
  | some unsup => some (make_error_response_from_code_and_headers X unsup.code unsup.headers)
  | none => none

/-- Embedding of `serve_or_error`: reject unsupported requests, serve the
file, and let extensions post-process the pair. -/
def serve_or_error (X : Externals) (config : Config) (fs : Fs) (req : Request) :
    Except Err Response :=
  match handle_unsupported_request X req with
  | some resp => resp
  | none => ext_serve X config fs req (serve_file X fs req config.root_dir)

/-- Embedding of `serve`: the response the client receives, paired with the
error-chain log lines emitted while translating failures. -/
def serve (X : Externals) (config : Config) (fs : Fs) (req : Request) :
    Response × List (List Nat) :=
  transform_error X (serve_or_error X config fs req)

/-! ## Concrete instances used by witnesses and counterexamples -/

/-- Externals whose template rendering always succeeds, with a recognizable
wrapping, an identity-like markdown renderer and a constant MIME guess. -/
def X0 : Externals :=
  { render := fun hcfg =>
      .ok (strBytes ("<page>") ++ hcfg.title ++ strBytes ("|") ++ hcfg.body ++ strBytes ("</page>")),
    md2html := fun b => strBytes ("<p>") ++ b ++ strBytes ("</p>"),
    mimeGuess := fun _ => strBytes ("application/octet-stream") }

/-- Externals whose template rendering always fails, exercising the
last-resort error path. -/
def Xbad : Externals :=
  { render := fun _ => .error .TemplateRender,
    md2html := fun b => b,
    mimeGuess := fun _ => strBytes ("application/octet-stream") }

/-- A sample filesystem rooted at `/r`: a text file, a directory with an
`index.html`, a directory without one, markdown files (valid, non-UTF-8, and
a directory named like one), and a file outside nothing in particular. -/
def fsA : Fs :=
  { entries :=
    [ ([], .dir),
      ([strBytes ("r")], .dir),
      ([strBytes ("r"), strBytes ("a.txt")], .file (strBytes ("hi"))),
      ([strBytes ("r"), strBytes ("docs")], .dir),
      ([strBytes ("r"), strBytes ("docs"), strBytes ("index.html")],
        .file (strBytes ("<h1>idx</h1>"))),
      ([strBytes ("r"), strBytes ("empty")], .dir),
      ([strBytes ("r"), strBytes ("empty"), strBytes ("z")], .file (strBytes ("zz"))),
      ([strBytes ("r"), strBytes ("n.md")], .file (strBytes ("# Hi"))),
      ([strBytes ("r"), strBytes ("bad.md")], .file [255]),
      ([strBytes ("r"), strBytes ("d.md")], .dir),
      ([strBytes ("r"), strBytes ("d.md"), strBytes ("x")], .file (strBytes ("x")))] }

/-- Configuration with root `/r` and extensions enabled. -/
def cfgX : Config := { root_dir := strBytes ("/r"), use_extensions := true }

/-- A filesystem for the traversal scenario: the served root is `/r/root`,
and `/r/secret` lies outside it. -/
def fs3 : Fs :=
  { entries :=
    [ ([], .dir),
      ([strBytes ("r")], .dir),
      ([strBytes ("r"), strBytes ("root")], .dir),
      ([strBytes ("r"), strBytes ("root"), strBytes ("a.txt")], .file (strBytes ("hi"))),
      ([strBytes ("r"), strBytes ("secret")], .file (strBytes ("top")))] }

/-- Configuration with root `/r/root` and extensions disabled. -/
def cfg3 : Config := { root_dir := strBytes ("/r/root"), use_extensions := false }

/-- A GET request for a path with no query string. -/
def reqOf (p : String) : Request :=
  { method := .GET, uri := { path := strBytes (p), query := none } }

/-! ## Helper lemmas -/

/-- Decoding the uppercase hex digit of a value below 16 recovers it. -/
theorem hexDigit_hexUpper (x : Nat) (hx : x < 16) : hexDigit (hexUpper x) = some x := by
  interval_cases x <;> rfl

/-- Percent-decoding consumes one `%XX` escape of a byte back to the byte. -/
theorem percentDecode_encodeByte (b : Nat) (hb : b < 256) (rest : List Nat) :
    percentDecode (37 :: hexUpper (b / 16) :: hexUpper (b % 16) :: rest) =
      b :: percentDecode rest := by
  have h1 : hexDigit (hexUpper (b / 16)) = some (b / 16) :=
    hexDigit_hexUpper _ (by omega)
  have h2 : hexDigit (hexUpper (b % 16)) = some (b % 16) :=
    hexDigit_hexUpper _ (Nat.mod_lt _ (by norm_num))
  simp [percentDecode, h1, h2, Nat.div_add_mod]

/-- A successful `isOk` yields the underlying success value. -/
theorem render_ok_exists (X : Externals) (hcfg : HtmlCfg)
    (h : (X.render hcfg).isOk = true) : ∃ s, X.render hcfg = .ok s := by
  cases he : X.render hcfg with
  | ok s => exact ⟨s, rfl⟩
  | error e => rw [he] at h; simp [Except.isOk, Except.toBool] at h

/-- When `isDir` answers true the underlying `stat` reported a directory. -/
theorem isDir_eq_stat {fs : Fs} {p : List Nat} (h : isDir fs p = true) :
    fsStat fs p = .ok .dir := by
  unfold isDir at h
  cases he : fsStat fs p with
  | error k => rw [he] at h; cases h
  | ok e =>
    cases e with
    | dir => rfl
    | file c => rw [he] at h; cases h

/-- Shape of a successful internal-server-error response: status 500 and the
logged error chain of the offending error. -/
theorem make_internal_ok (X : Externals) (err : Err) (s : List Nat)
    (hs : X.render { title := statusDisplay 500, body := [] } = .ok s) :
    make_internal_server_error_response X err =
      .ok ({ status := 500,
             headers := [(CONTENT_LENGTH, natBytes s.length),
                         (CONTENT_TYPE, strBytes ("text/html"))],
             body := .str s }, log_error_chain err) := by
  unfold make_internal_server_error_response make_error_response_from_code
    make_error_response_from_code_and_headers render_error_html
    html_str_to_response_with_headers
  simp [hs]

/-- With a working template, a `NotFound` I/O failure translates to a 404
response with no error-chain log lines. -/
theorem transform_error_not_found (X : Externals)
    (hr : ∀ hcfg, (X.render hcfg).isOk = true) :
    (transform_error X (.error (.Io .notFound))).1.status = 404 ∧
    (transform_error X (.error (.Io .notFound))).2 = [] := by
  obtain ⟨s, hs⟩ := render_ok_exists X { title := statusDisplay 404, body := [] } (hr _)
  unfold transform_error make_error_response make_io_error_response
    make_error_response_from_code make_error_response_from_code_and_headers
    render_error_html html_str_to_response_with_headers
  simp [hs]

/-- With a working template, every failure other than `NotFound` translates
to a 500 response together with the error's logged chain. -/
theorem transform_error_other (X : Externals) (e : Err)
    (hnf : isNotFoundIo e = false)
    (hr : ∀ hcfg, (X.render hcfg).isOk = true) :
    (transform_error X (.error e)).1.status = 500 ∧
    (transform_error X (.error e)).2 = log_error_chain e := by
  obtain ⟨s, hs⟩ := render_ok_exists X { title := statusDisplay 500, body := [] } (hr _)
  cases e with
  | Io k =>
    cases k with
    | notFound => simp [isNotFoundIo] at hnf
    | isADir =>
      simp [transform_error, make_error_response, make_io_error_response,
        make_internal_ok X _ s hs, log_error_chain]
    | notADir =>
      simp [transform_error, make_error_response, make_io_error_response,
        make_internal_ok X _ s hs, log_error_chain]
    | otherKind =>
      simp [transform_error, make_error_response, make_io_error_response,
        make_internal_ok X _ s hs, log_error_chain]
  | Http => simp [transform_error, make_error_response, make_internal_ok X _ s hs]
  | MarkdownUtf8 => simp [transform_error, make_error_response, make_internal_ok X _ s hs]
  | StripPrefixInDirList => simp [transform_error, make_error_response, make_internal_ok X _ s hs]
  | TemplateRender => simp [transform_error, make_error_response, make_internal_ok X _ s hs]
  | UriNotAbsolute => simp [transform_error, make_error_response, make_internal_ok X _ s hs]
  | UriNotUtf8 => simp [transform_error, make_error_response, make_internal_ok X _ s hs]
  | WriteInDirList => simp [transform_error, make_error_response, make_internal_ok X _ s hs]

/-! ## Claims -/

/-- C9: percent-encoding a directory-entry relative path all of whose bytes
lie in the extended fragment-safe set, as `make_dir_list_body` does, and
percent-decoding the result reproduces the original path exactly. -/
theorem C9_percent_round_trip (bs : List Nat)
    (h : ∀ b ∈ bs, inPathSet b = true) :
    percentDecode (utf8PercentEncode inPathSet bs) = bs := by
  induction bs with
  | nil => rfl
  | cons b tl ih =>
    have hb : inPathSet b = true := h b (List.mem_cons_self b tl)
    have hb256 : b < 256 := by
      simp only [inPathSet, Bool.or_eq_true, decide_eq_true_eq] at hb
      omega
    have henc : utf8PercentEncode inPathSet (b :: tl) =
        37 :: hexUpper (b / 16) :: hexUpper (b % 16) :: utf8PercentEncode inPathSet tl := by
      simp [utf8PercentEncode, hb]
    rw [henc, percentDecode_encodeByte b hb256,
      ih (fun x hx => h x (List.mem_cons_of_mem _ hx))]

/-- Witness for C9 at a concrete path made of set bytes (space, `#`, `?`,
`{`, `}`, and a control byte). -/
theorem C9_percent_round_trip_witness :
    (∀ b ∈ [32, 35, 63, 123, 125, 1], inPathSet b = true) ∧
    percentDecode (utf8PercentEncode inPathSet [32, 35, 63, 123, 125, 1]) =
      [32, 35, 63, 123, 125, 1] :=
  ⟨by decide, C9_percent_round_trip [32, 35, 63, 123, 125, 1] (by decide)⟩

/-- C6: path resolution fails with `UriNotUtf8` exactly when the
percent-decoded path is not valid UTF-8, fails with `UriNotAbsolute` exactly
when the decoded path does not start with `/`, and succeeds otherwise with
the decoded remainder pushed onto the root.  `local_path_for_request` takes
no filesystem argument, so no filesystem I/O can occur in any case. -/
theorem C6_path_resolution_errors (uriPath root_dir : List Nat) :
    (local_path_for_request uriPath root_dir = .error .UriNotUtf8 ↔
      isValidUtf8 (percentDecode (takeUntil 63 uriPath)) = false)
  ∧ (local_path_for_request uriPath root_dir = .error .UriNotAbsolute ↔
      (isValidUtf8 (percentDecode (takeUntil 63 uriPath)) = true ∧
       (percentDecode (takeUntil 63 uriPath)).head? ≠ some 47))
  ∧ (isValidUtf8 (percentDecode (takeUntil 63 uriPath)) = true →
     (percentDecode (takeUntil 63 uriPath)).head? = some 47 →
     local_path_for_request uriPath root_dir =
       .ok (pathPush root_dir (percentDecode (takeUntil 63 uriPath)).tail)) := by
  unfold local_path_for_request
  by_cases hv : isValidUtf8 (percentDecode (takeUntil 63 uriPath)) = true
  · by_cases hh : (percentDecode (takeUntil 63 uriPath)).head? = some 47 <;>
      simp [hv, hh]
  · simp at hv
    simp [hv]

/-- Witness for C6 at the concrete URI path `/a%20b?x=1` against root `/r`:
decoding yields `/a b`, which resolves to `/r/a b`. -/
theorem C6_path_resolution_errors_witness :
    isValidUtf8 (percentDecode (takeUntil 63 (strBytes ("/a%20b?x=1")))) = true
  ∧ (percentDecode (takeUntil 63 (strBytes ("/a%20b?x=1")))).head? = some 47
  ∧ local_path_for_request (strBytes ("/a%20b?x=1")) (strBytes ("/r")) =
      .ok (strBytes ("/r/a b")) :=
  ⟨by decide, by decide,
    (C6_path_resolution_errors (strBytes ("/a%20b?x=1")) (strBytes ("/r"))).2.2
      (by decide) (by decide)⟩

/-- C1 (code bug): with root `/r/root`, the request `/../secret` resolves to
`/r/root/../secret`, which is not under the root, and the pipeline serves
the contents of `/r/secret` — a file outside the root — with a 200.  The
claimed invariant that no `..` traversal survives resolution is violated:
`local_path_for_request` performs no canonicalization of `..` segments. -/
theorem C1_traversal_escapes_root :
    local_path_for_request (strBytes ("/../secret")) (strBytes ("/r/root")) =
      .ok (strBytes ("/r/root/../secret"))
  ∧ underRoot (strBytes ("/r/root")) (strBytes ("/r/root/../secret")) = false
  ∧ (serve X0 cfg3 fs3 (reqOf "/../secret")).1.status = 200
  ∧ (serve X0 cfg3 fs3 (reqOf "/../secret")).1.body = .fileStream (strBytes ("top")) := by
  refine ⟨by decide, by decide, by decide, by decide⟩

/-- C3: a request path without a trailing slash that resolves to an existing
directory is answered by `serve_file` with a 302 whose `Location` is the raw
path plus `/` plus the original query string when present, with an empty
body (so no file content is read); and a path already ending in `/` never
produces a redirect. -/
theorem C3_dir_redirect (X : Externals) (fs : Fs) (req : Request)
    (root_dir lp : List Nat)
    (hslash : trailingSlash req.uri.path = false)
    (hlp : local_path_for_request req.uri.path root_dir = .ok lp)
    (hdir : isDir fs lp = true) :
    serve_file X fs req root_dir =
      .ok { status := 302,
            headers := [(LOCATION, req.uri.path ++ [47] ++
              (match req.uri.query with
               | some q => 63 :: q
               | none => []))],
            body := .empty }
  ∧ (∀ req2 : Request, trailingSlash req2.uri.path = true →
       try_dir_redirect fs req2 root_dir = .ok none) := by
  constructor
  · unfold serve_file try_dir_redirect
    simp [hslash, hlp, hdir]
  · intro req2 h2
    unfold try_dir_redirect
    simp [h2]

/-- Witness for C3: `GET /docs?x=1` against `fsA` redirects to `/docs/?x=1`
with an empty body, and a trailing-slash request is never redirected. -/
theorem C3_dir_redirect_witness :
    trailingSlash (strBytes ("/docs")) = false
  ∧ isDir fsA (strBytes ("/r/docs")) = true
  ∧ serve_file X0 fsA
      { method := .GET, uri := { path := strBytes ("/docs"), query := some (strBytes ("x=1")) } }
      (strBytes ("/r")) =
      .ok { status := 302,
            headers := [(LOCATION, strBytes ("/docs/?x=1"))],
            body := .empty }
  ∧ try_dir_redirect fsA (reqOf "/docs/") (strBytes ("/r")) = .ok none := by
  have h := C3_dir_redirect X0 fsA
    { method := .GET, uri := { path := strBytes ("/docs"), query := some (strBytes ("x=1")) } }
    (strBytes ("/r")) (strBytes ("/r/docs")) (by decide) (by decide) (by decide)
  exact ⟨by decide, by decide, h.1, h.2 (reqOf "/docs/") (by decide)⟩

/-- C7: a request path ending in `/` whose resolved path is an existing
directory containing an `index.html` file gets `index.html` appended by
index substitution, and `serve_file` answers 200 streaming that file's
contents — not a directory listing. -/
theorem C7_index_substitution (X : Externals) (fs : Fs) (req : Request)
    (root_dir lp c : List Nat)
    (hslash : trailingSlash req.uri.path = true)
    (hlp : local_path_for_request req.uri.path root_dir = .ok lp)
    (hdir : isDir fs lp = true)
    (hidx : fsOpen fs (pathPush lp (strBytes ("index.html"))) = .ok c) :
    local_path_with_maybe_index fs req.uri.path root_dir =
      .ok (pathPush lp (strBytes ("index.html")))
  ∧ serve_file X fs req root_dir =
      .ok { status := 200,
            headers := [(CONTENT_LENGTH, natBytes c.length),
                        (CONTENT_TYPE, X.mimeGuess (pathPush lp (strBytes ("index.html"))))],
            body := .fileStream c } := by
  have hsub : local_path_with_maybe_index fs req.uri.path root_dir =
      .ok (pathPush lp (strBytes ("index.html"))) := by
    unfold local_path_with_maybe_index
    simp [hlp, hdir]
  refine ⟨hsub, ?_⟩
  unfold serve_file try_dir_redirect respond_with_file
  simp [hslash, hsub, hidx]

/-- Witness for C7: `GET /docs/` against `fsA` serves the contents of
`/r/docs/index.html`. -/
theorem C7_index_substitution_witness :
    trailingSlash (strBytes ("/docs/")) = true
  ∧ isDir fsA (strBytes ("/r/docs/")) = true
  ∧ fsOpen fsA (pathPush (strBytes ("/r/docs/")) (strBytes ("index.html"))) =
      .ok (strBytes ("<h1>idx</h1>"))
  ∧ serve_file X0 fsA (reqOf "/docs/") (strBytes ("/r")) =
      .ok { status := 200,
            headers := [(CONTENT_LENGTH, natBytes (strBytes ("<h1>idx</h1>")).length),
                        (CONTENT_TYPE, strBytes ("application/octet-stream"))],
            body := .fileStream (strBytes ("<h1>idx</h1>")) } := by
  have h := C7_index_substitution X0 fsA (reqOf "/docs/") (strBytes ("/r"))
    (strBytes ("/r/docs/")) (strBytes ("<h1>idx</h1>"))
    (by decide) (by decide) (by decide) (by decide)
  exact ⟨by decide, by decide, by decide, h.2⟩

/-- C10: with extensions enabled, a no-trailing-slash request naming an
existing directory whose name has extension `md` makes `serve_file` produce
a 302 redirect, but `ext::serve` runs the markdown rule before inspecting
that outcome: the 302 is discarded, the attempt to read the directory as a
markdown file fails with a (non-NotFound) I/O error, and the client receives
a 500 — never the 302. -/
theorem C10_md_dir_redirect_discarded (X : Externals) (cfg : Config) (fs : Fs)
    (req : Request) (lp : List Nat)
    (hx : cfg.use_extensions = true)
    (hm : req.method = .GET)
    (hslash : trailingSlash req.uri.path = false)
    (hlp : local_path_for_request req.uri.path cfg.root_dir = .ok lp)
    (hext : fileExtOf lp = strBytes ("md"))
    (hdir : isDir fs lp = true) :
    serve_file X fs req cfg.root_dir =
      .ok { status := 302,
            headers := [(LOCATION, req.uri.path ++ [47] ++
              (match req.uri.query with
               | some q => 63 :: q
               | none => []))],
            body := .empty }
  ∧ serve_or_error X cfg fs req = md_path_to_html X fs lp
  ∧ md_path_to_html X fs lp = .error (.Io .isADir)
  ∧ ((∀ hcfg, (X.render hcfg).isOk = true) →
       (serve X cfg fs req).1.status = 500) := by
  have h302 : serve_file X fs req cfg.root_dir =
      .ok { status := 302,
            headers := [(LOCATION, req.uri.path ++ [47] ++
              (match req.uri.query with
               | some q => 63 :: q
               | none => []))],
            body := .empty } := by
    unfold serve_file try_dir_redirect
    simp [hslash, hlp, hdir]
  have hmd : md_path_to_html X fs lp = .error (.Io .isADir) := by
    unfold md_path_to_html fsOpen
    rw [isDir_eq_stat hdir]
  have hso : serve_or_error X cfg fs req = md_path_to_html X fs lp := by
    unfold serve_or_error handle_unsupported_request get_unsupported_request_message
    unfold ext_serve
    simp [hm, hx, hlp, hext]
  refine ⟨h302, hso, hmd, fun hr => ?_⟩
  unfold serve
  rw [hso, hmd]
  exact (transform_error_other X (.Io .isADir) (by decide) hr).1

/-- Witness for C10: `GET /d.md` against `fsA` (a directory named `d.md`)
yields a 500, not the 302 `serve_file` produced. -/
theorem C10_md_dir_redirect_discarded_witness :
    cfgX.use_extensions = true
  ∧ trailingSlash (strBytes ("/d.md")) = false
  ∧ fileExtOf (strBytes ("/r/d.md")) = strBytes ("md")
  ∧ isDir fsA (strBytes ("/r/d.md")) = true
  ∧ serve_file X0 fsA (reqOf "/d.md") cfgX.root_dir =
      .ok { status := 302, headers := [(LOCATION, strBytes ("/d.md/"))], body := .empty }
  ∧ (serve X0 cfgX fsA (reqOf "/d.md")).1.status = 500 := by
  have h := C10_md_dir_redirect_discarded X0 cfgX fsA (reqOf "/d.md")
    (strBytes ("/r/d.md")) (by decide) (by decide) (by decide) (by decide)
    (by decide) (by decide)
  exact ⟨by decide, by decide, by decide, by decide, h.1, h.2.2.2 (fun _ => rfl)⟩

/-- C4: with extensions enabled and a resolved path whose extension is
exactly `md`, `ext::serve` ignores the prior outcome entirely; when the file
bytes are valid UTF-8 it answers 200 `text/html` with the rendered markdown
wrapped in the page template, and when they are not the outcome is the
`MarkdownUtf8` failure. -/
theorem C4_markdown_override (X : Externals) (cfg : Config) (fs : Fs)
    (req : Request) (lp c : List Nat)
    (hx : cfg.use_extensions = true)
    (hlp : local_path_for_request req.uri.path cfg.root_dir = .ok lp)
    (hext : fileExtOf lp = strBytes ("md"))
    (hc : fsOpen fs lp = .ok c) :
    (∀ resp, ext_serve X cfg fs req resp = md_path_to_html X fs lp)
  ∧ (isValidUtf8 c = true →
     ∀ page, X.render { title := [], body := X.md2html c } = .ok page →
       md_path_to_html X fs lp =
         .ok { status := 200,
               headers := [(CONTENT_LENGTH, natBytes page.length),
                           (CONTENT_TYPE, strBytes ("text/html"))],
               body := .str page })
  ∧ (isValidUtf8 c = false → md_path_to_html X fs lp = .error .MarkdownUtf8) := by
  refine ⟨fun resp => ?_, fun hv page hp => ?_, fun hv => ?_⟩
  · unfold ext_serve
    simp [hx, hlp, hext]
  · unfold md_path_to_html
    simp [hc, hv, hp]
  · unfold md_path_to_html
    simp [hc, hv]

/-- Witness for C4: `GET /n.md` (valid UTF-8) renders to a 200 `text/html`
page even when FileResponder had failed, and `/bad.md` (byte 255) is the
`MarkdownUtf8` failure. -/
theorem C4_markdown_override_witness :
    cfgX.use_extensions = true
  ∧ fileExtOf (strBytes ("/r/n.md")) = strBytes ("md")
  ∧ fsOpen fsA (strBytes ("/r/n.md")) = .ok (strBytes ("# Hi"))
  ∧ isValidUtf8 (strBytes ("# Hi")) = true
  ∧ ext_serve X0 cfgX fsA (reqOf "/n.md") (.error (.Io .notFound)) =
      md_path_to_html X0 fsA (strBytes ("/r/n.md"))
  ∧ md_path_to_html X0 fsA (strBytes ("/r/n.md")) =
      .ok { status := 200,
            headers := [(CONTENT_LENGTH, natBytes (strBytes ("<page>|<p># Hi</p></page>")).length),
                        (CONTENT_TYPE, strBytes ("text/html"))],
            body := .str (strBytes ("<page>|<p># Hi</p></page>")) }
  ∧ isValidUtf8 [255] = false
  ∧ md_path_to_html X0 fsA (strBytes ("/r/bad.md")) = .error .MarkdownUtf8 := by
  have h := C4_markdown_override X0 cfgX fsA (reqOf "/n.md")
    (strBytes ("/r/n.md")) (strBytes ("# Hi"))
    (by decide) (by decide) (by decide) (by decide)
  have hbad := C4_markdown_override X0 cfgX fsA (reqOf "/bad.md")
    (strBytes ("/r/bad.md")) [255]
    (by decide) (by decide) (by decide) (by decide)
  exact ⟨by decide, by decide, by decide, by decide,
    h.1 (.error (.Io .notFound)),
    h.2.1 (by decide) (strBytes ("<page>|<p># Hi</p></page>")) (by decide),
    by decide,
    hbad.2.2 (by decide)⟩

/-- Filtering for a name after removing that name gives nothing. -/
theorem filter_after_filter_ne (k : String) (hs : List (String × List Nat)) :
    (hs.filter (fun h => h.1 ≠ k)).filter (fun h => h.1 = k) = [] := by
  induction hs with
  | nil => rfl
  | cons a tl ih =>
    by_cases ha : a.1 = k
    · simp [ha, ih]
    · simp [ha, ih]

/-- Filtering for a different name is unaffected by removing a name. -/
theorem filter_eq_after_filter_ne (k k2 : String) (hk : k2 ≠ k)
    (hs : List (String × List Nat)) :
    (hs.filter (fun h => h.1 ≠ k)).filter (fun h => h.1 = k2) =
      hs.filter (fun h => h.1 = k2) := by
  induction hs with
  | nil => rfl
  | cons a tl ih =>
    have hk' : ¬k = k2 := fun h => hk h.symm
    simp only [decide_not] at ih
    by_cases h1 : a.1 = k <;> by_cases h2 : a.1 = k2 <;>
      first
        | exact absurd (h2.symm.trans h1) hk
        | simp [List.filter_cons, h1, h2, ih, hk, hk', -List.filter_filter]

/-- Inserting a header makes its value the only one for that name. -/
theorem headerValues_insert_self (k : String) (v : List Nat)
    (hs : List (String × List Nat)) :
    headerValues k (insertHeader k v hs) = [v] := by
  unfold headerValues insertHeader
  rw [List.filter_append, filter_after_filter_ne]
  simp

/-- Inserting a header leaves every other name's values unchanged. -/
theorem headerValues_insert_other (k k2 : String) (hk : k2 ≠ k) (v : List Nat)
    (hs : List (String × List Nat)) :
    headerValues k2 (insertHeader k v hs) = headerValues k2 hs := by
  unfold headerValues insertHeader
  rw [List.filter_append, filter_eq_after_filter_ne k k2 hk]
  have hone : (([(k, v)] : List (String × List Nat)).filter (fun h => h.1 = k2)) = [] := by
    have hne : ¬k = k2 := fun h => hk h.symm
    simp [hne]
  rw [hone]
  simp

/-- C8: with extensions enabled (and no markdown diversion), a successful
response is post-processed by the plain-text override alone; when the raw
request path matches the extension or filename allow-lists only the
`Content-Type` header is rewritten to `text/plain` — status, body, and every
other header survive — and when it matches neither list the response passes
through entirely unchanged. -/
theorem C8_plain_text_override (X : Externals) (cfg : Config) (fs : Fs)
    (req : Request) (resp : Response) (lp : List Nat)
    (hx : cfg.use_extensions = true)
    (hlp : local_path_for_request req.uri.path cfg.root_dir = .ok lp)
    (hext : fileExtOf lp ≠ strBytes ("md")) :
    ext_serve X cfg fs req (.ok resp) =
      .ok (maybe_convert_mime_type_to_text req.uri.path resp)
  ∧ (textMatch req.uri.path = true →
       (maybe_convert_mime_type_to_text req.uri.path resp).status = resp.status
     ∧ (maybe_convert_mime_type_to_text req.uri.path resp).body = resp.body
     ∧ headerValues CONTENT_TYPE
         (maybe_convert_mime_type_to_text req.uri.path resp).headers =
         [strBytes ("text/plain")]
     ∧ ∀ k : String, k ≠ CONTENT_TYPE →
         headerValues k (maybe_convert_mime_type_to_text req.uri.path resp).headers =
           headerValues k resp.headers)
  ∧ (textMatch req.uri.path = false →
       maybe_convert_mime_type_to_text req.uri.path resp = resp) := by
  refine ⟨?_, fun hmatch => ?_, fun hmatch => ?_⟩
  · unfold ext_serve
    simp [hx, hlp, hext]
  · unfold maybe_convert_mime_type_to_text
    rw [hmatch]
    refine ⟨rfl, rfl, headerValues_insert_self _ _ _,
      fun k hk => headerValues_insert_other _ k hk _ _⟩
  · unfold maybe_convert_mime_type_to_text
    rw [hmatch]
    simp

/-- Witness for C8: `GET /Makefile` (in `TEXT_FILES`) gets only its
`Content-Type` rewritten to `text/plain`, and `GET /img.png` (matching
neither list) is passed through unchanged. -/
theorem C8_plain_text_override_witness :
    textMatch (strBytes ("/Makefile")) = true
  ∧ fileExtOf (strBytes ("/r/Makefile")) ≠ strBytes ("md")
  ∧ ext_serve X0 cfgX fsA (reqOf "/Makefile")
      (.ok { status := 200,
             headers := [(CONTENT_LENGTH, natBytes 2),
                         (CONTENT_TYPE, strBytes ("application/octet-stream"))],
             body := .fileStream (strBytes ("hi")) }) =
      .ok { status := 200,
            headers := [(CONTENT_LENGTH, natBytes 2),
                        (CONTENT_TYPE, strBytes ("text/plain"))],
            body := .fileStream (strBytes ("hi")) }
  ∧ textMatch (strBytes ("/img.png")) = false
  ∧ maybe_convert_mime_type_to_text (strBytes ("/img.png"))
      { status := 200,
        headers := [(CONTENT_TYPE, strBytes ("image/png"))],
        body := .fileStream (strBytes ("p")) } =
      { status := 200,
        headers := [(CONTENT_TYPE, strBytes ("image/png"))],
        body := .fileStream (strBytes ("p")) } := by
  have h := C8_plain_text_override X0 cfgX fsA (reqOf "/Makefile")
    { status := 200,
      headers := [(CONTENT_LENGTH, natBytes 2),
                  (CONTENT_TYPE, strBytes ("application/octet-stream"))],
      body := .fileStream (strBytes ("hi")) }
    (strBytes ("/r/Makefile")) (by decide) (by decide) (by decide)
  have h2 := C8_plain_text_override X0 cfgX fsA (reqOf "/img.png")
    { status := 200,
      headers := [(CONTENT_TYPE, strBytes ("image/png"))],
      body := .fileStream (strBytes ("p")) }
    (strBytes ("/r/img.png")) (by decide) (by decide) (by decide)
  refine ⟨by decide, by decide, ?_, by decide, h2.2.2 (by decide)⟩
  rw [h.1]
  unfold maybe_convert_mime_type_to_text
  decide

/-- Counterexample to C2 as stated, in two parts.  First, `GET /missing`
resolves to the missing file `/r/missing` whose parent directory `/r`
exists, yet the response is a 404, not a 200 page listing the parent's
entries — `ext::serve` stats the missing resolved path itself (failing with
`NotFound`, propagated by `?`), never the parent.  Second, `GET /d.md/`
(an existing directory `/r/d.md` with no `index.html`) has a `NotFound`
primary outcome and an existing, listable resolved directory, yet the
markdown rule diverts first and the response is a 500 — neither a listing
nor a 404 — so any correct restatement must exclude resolved paths with
extension `md`. -/
theorem C2_parent_listing_counterexample :
    cfgX.use_extensions = true
  ∧ local_path_for_request (strBytes ("/missing")) cfgX.root_dir =
      .ok (strBytes ("/r/missing"))
  ∧ isDir fsA (strBytes ("/r")) = true
  ∧ fsStat fsA (strBytes ("/r/missing")) = .error .notFound
  ∧ (serve X0 cfgX fsA (reqOf "/missing")).1.status = 404
  ∧ serve_file X0 fsA (reqOf "/d.md/") cfgX.root_dir = .error (.Io .notFound)
  ∧ fileExtOf (strBytes ("/r/d.md/")) = strBytes ("md")
  ∧ fsStat fsA (strBytes ("/r/d.md/")) = .ok .dir
  ∧ (serve X0 cfgX fsA (reqOf "/d.md/")).1.status = 500 := by
  refine ⟨by decide, by decide, by decide, by decide, by decide, by decide,
    by decide, by decide, by decide⟩

/-- C2 (amended): with extensions enabled, for a GET request whose resolved
path's extension is not exactly `md`, when the primary outcome is a
`NotFound` I/O failure the response is a 200 `text/html` listing of the
resolved (non-index-substituted) path exactly when that path is an existing
directory — the parent of the missing `index.html`; when the resolved path
is missing or is a file, the original `NotFound` failure is preserved and
the client receives a 404.  (Resolved paths with extension `md` are diverted
to the markdown rule before the outcome is inspected — see the second half
of the counterexample, where `GET /d.md/` yields a 500.) -/
theorem C2_missing_file_listing (X : Externals) (cfg : Config) (fs : Fs)
    (req : Request) (lp : List Nat)
    (hx : cfg.use_extensions = true)
    (hm : req.method = .GET)
    (hlp : local_path_for_request req.uri.path cfg.root_dir = .ok lp)
    (hmdext : fileExtOf lp ≠ strBytes ("md"))
    (hnf : serve_file X fs req cfg.root_dir = .error (.Io .notFound)) :
    (fsStat fs lp = .ok .dir →
        serve_or_error X cfg fs req = list_dir X fs cfg.root_dir lp
      ∧ ∀ r, list_dir X fs cfg.root_dir lp = .ok r →
          r.status = 200 ∧
          headerValues CONTENT_TYPE r.headers = [strBytes ("text/html")])
  ∧ (fsStat fs lp = .error .notFound →
       serve_or_error X cfg fs req = .error (.Io .notFound))
  ∧ (∀ cc, fsStat fs lp = .ok (.file cc) →
       serve_or_error X cfg fs req = .error (.Io .notFound))
  ∧ (serve_or_error X cfg fs req = .error (.Io .notFound) →
     (∀ hcfg, (X.render hcfg).isOk = true) →
     (serve X cfg fs req).1.status = 404) := by
  have hso : serve_or_error X cfg fs req =
      ext_serve X cfg fs req (serve_file X fs req cfg.root_dir) := by
    unfold serve_or_error handle_unsupported_request get_unsupported_request_message
    simp [hm]
  refine ⟨fun hdir => ⟨?_, fun r hr => ?_⟩, fun hmiss => ?_, fun cc hfile => ?_,
    fun h404 hr => ?_⟩
  · rw [hso]
    unfold ext_serve maybe_list_dir
    cases hl : list_dir X fs cfg.root_dir lp with
    | error e => simp [hx, hlp, hmdext, hnf, hdir, hl]
    | ok r0 => simp [hx, hlp, hmdext, hnf, hdir, hl]
  · unfold list_dir at hr
    cases hb : make_dir_list_body X cfg.root_dir
        (pathPush lp [46, 46] :: sortPaths (readDirPaths fs lp)) with
    | error e => simp [hb] at hr
    | ok html =>
      simp only [hb] at hr
      unfold html_str_to_response html_str_to_response_with_headers at hr
      simp only [Except.ok.injEq] at hr
      subst hr
      refine ⟨rfl, ?_⟩
      simp [headerValues, CONTENT_LENGTH, CONTENT_TYPE]
  · rw [hso]
    unfold ext_serve maybe_list_dir
    simp [hx, hlp, hmdext, hnf, hmiss]
  · rw [hso]
    unfold ext_serve maybe_list_dir
    simp [hx, hlp, hmdext, hnf, hfile]
  · unfold serve
    rw [h404]
    exact (transform_error_not_found X hr).1

/-- Witness for C2 (amended): `GET /empty/` (a directory with no
`index.html`) is answered by the 200 `text/html` listing of `/r/empty/`,
and `GET /missing` keeps its `NotFound` failure and yields a 404. -/
theorem C2_missing_file_listing_witness :
    cfgX.use_extensions = true
  ∧ serve_file X0 fsA (reqOf "/empty/") cfgX.root_dir = .error (.Io .notFound)
  ∧ fsStat fsA (strBytes ("/r/empty/")) = .ok .dir
  ∧ serve_or_error X0 cfgX fsA (reqOf "/empty/") =
      list_dir X0 fsA cfgX.root_dir (strBytes ("/r/empty/"))
  ∧ (∀ r, list_dir X0 fsA cfgX.root_dir (strBytes ("/r/empty/")) = .ok r →
      r.status = 200 ∧ headerValues CONTENT_TYPE r.headers = [strBytes ("text/html")])
  ∧ serve_file X0 fsA (reqOf "/missing") cfgX.root_dir = .error (.Io .notFound)
  ∧ fsStat fsA (strBytes ("/r/missing")) = .error .notFound
  ∧ serve_or_error X0 cfgX fsA (reqOf "/missing") = .error (.Io .notFound)
  ∧ (serve X0 cfgX fsA (reqOf "/missing")).1.status = 404 := by
  have hlist := C2_missing_file_listing X0 cfgX fsA (reqOf "/empty/")
    (strBytes ("/r/empty/")) (by decide) (by decide) (by decide) (by decide) (by decide)
  have hmiss := C2_missing_file_listing X0 cfgX fsA (reqOf "/missing")
    (strBytes ("/r/missing")) (by decide) (by decide) (by decide) (by decide) (by decide)
  have hd := hlist.1 (by decide)
  have hm2 := hmiss.2.1 (by decide)
  exact ⟨by decide, by decide, by decide, hd.1, hd.2, by decide, by decide, hm2,
    hmiss.2.2.2 hm2 (fun _ => rfl)⟩

/-- C5: with a working template, a `NotFound` I/O failure reaching
`transform_error` becomes a 404, every other error becomes a 500 logged with
its full cause chain (a single entry, since `Error::source()` is always
`None`); and when building the error response itself fails, a plain-text
body describing the failure is returned directly, so a response is always
produced. -/
theorem C5_error_translation (X : Externals) (e eBad : Err) :
    ((∀ hcfg, (X.render hcfg).isOk = true) →
        (transform_error X (.error (.Io .notFound))).1.status = 404
      ∧ (isNotFoundIo e = false →
           (transform_error X (.error e)).1.status = 500
         ∧ (transform_error X (.error e)).2 = log_error_chain e))
  ∧ (∀ e2, make_error_response X eBad = .error e2 →
       transform_error X (.error eBad) =
         ({ status := 200, headers := [],
            body := .str (strBytes ("unexpected internal error: ") ++ errDisplay e2) },
          [strBytes ("unexpected internal error: ") ++ errDisplay e2])) := by
  refine ⟨fun hr => ⟨(transform_error_not_found X hr).1,
    fun hnf => transform_error_other X e hnf hr⟩, fun e2 h2 => ?_⟩
  unfold transform_error
  simp only [h2]

/-- Witness for C5: with the always-succeeding template, `NotFound` gives a
404 and `MarkdownUtf8` a logged 500; with the always-failing template, the
`UriNotUtf8` failure falls through to the plain-text last-resort body. -/
theorem C5_error_translation_witness :
    (∀ hcfg, (X0.render hcfg).isOk = true)
  ∧ isNotFoundIo .MarkdownUtf8 = false
  ∧ (transform_error X0 (.error (.Io .notFound))).1.status = 404
  ∧ (transform_error X0 (.error .MarkdownUtf8)).1.status = 500
  ∧ (transform_error X0 (.error .MarkdownUtf8)).2 = log_error_chain .MarkdownUtf8
  ∧ make_error_response Xbad .UriNotUtf8 = .error .TemplateRender
  ∧ transform_error Xbad (.error .UriNotUtf8) =
      ({ status := 200, headers := [],
         body := .str (strBytes ("unexpected internal error: ") ++ errDisplay .TemplateRender) },
       [strBytes ("unexpected internal error: ") ++ errDisplay .TemplateRender]) := by
  have hgood := (C5_error_translation X0 .MarkdownUtf8 .UriNotUtf8).1 (fun _ => rfl)
  have h500 := hgood.2 (by decide)
  have hlast := (C5_error_translation Xbad .MarkdownUtf8 .UriNotUtf8).2
    .TemplateRender (by decide)
  exact ⟨fun _ => rfl, by decide, hgood.1, h500.1, h500.2, by decide, hlast⟩

end BasicHttpServer
